import Mathlib

/-!
Shallow embedding of the TraceBrain trace data model and the frontend
accessors, filter state machinery, and visualizer walks, translated from the
TypeScript sources under `web/src/`.  Backend pieces that are referenced by
the spec but whose implementation files are not present (the
ReconstructionEngine's `reconstruct` and the episode-level confidence
average) are modelled from the spec and are marked as such in their doc
comments.
-/

namespace TraceBrain

/-- An attribute value stored in the open key/value attribute bag
(`Record<string, any>` in `web/src/types/trace.ts`).  Only the shapes the
frontend accessors interact with are represented: strings, numbers, and the
AI-evaluation block object. -/
inductive AttrValue where
  | str (s : String)
  | num (q : ℚ)
  | evalBlock (rating : ℚ) (confidence : ℚ) (status : String) (feedback : String)
  deriving DecidableEq

/-- The open attribute bag: an association list of namespaced string keys to
values, looked up key-first as a JS object property access. -/
def AttrBag : Type := List (String × AttrValue)

instance : DecidableEq AttrBag := inferInstanceAs (DecidableEq (List (String × AttrValue)))

/-- `bag[key]` property access: first binding of the key, if any. -/
def attrGet (bag : AttrBag) (key : String) : Option AttrValue :=
  List.lookup key bag

/-- `Feedback` from `web/src/types/trace.ts`: optional rating, comment, tags,
timestamp and metadata. -/
structure Feedback where
  rating : Option ℚ := none
  comment : Option String := none
  tags : Option (List String) := none
  timestamp : Option String := none
  metadata : Option (List (String × String)) := none
  deriving DecidableEq

/-- `Span` from `web/src/types/trace.ts`. -/
structure Span where
  span_id : String
  parent_id : Option String
  name : String := ""
  start_time : String := ""
  end_time : String := ""
  attributes : AttrBag := []
  deriving DecidableEq

/-- `Trace` from `web/src/types/trace.ts`.  `feedbacks` is the append-only
feedback sequence: entries are listed oldest first, a new feedback is
appended at the end. -/
structure Trace where
  trace_id : String
  created_at : String := ""
  feedbacks : List Feedback := []
  attributes : AttrBag := []
  spans : List Span := []
  deriving DecidableEq

/-- `Episode` from `web/src/types/trace.ts`. -/
structure Episode where
  episode_id : String
  traces : List Trace
  deriving DecidableEq

/-! ## Trace accessors (`web/src/components/utils/traceUtils.ts`) -/

/-- `traceGetEvaluation`: reads `trace.attributes["tracebrain.ai_evaluation"]`. -/
def traceGetEvaluation (t : Trace) : Option AttrValue :=
  attrGet t.attributes "tracebrain.ai_evaluation"

/-- `traceGetLatestFeedback`: returns `null` when the trace has no feedback
entries, otherwise `trace.feedbacks[0]` — the FIRST entry of the sequence. -/
def traceGetLatestFeedback (t : Trace) : Option Feedback :=
  if t.feedbacks.length = 0 then none else t.feedbacks[0]?

/-! ## Trace filters (`web/src/components/explorer/types.ts` and
`FiltersPanel.tsx`) -/

/-- `TraceFilters` from `web/src/components/explorer/types.ts`: exactly the
fields `status`, `errorType`, `minRating`, `minConfidence`, `maxConfidence`,
`startTime`, `endTime`. -/
structure TraceFilters where
  status : String
  errorType : String
  minRating : Option ℚ
  minConfidence : Option ℚ
  maxConfidence : Option ℚ
  startTime : String
  endTime : String
  deriving DecidableEq

/-- `DEFAULT_TRACE_FILTERS` from `FiltersPanel.tsx`. -/
def DEFAULT_TRACE_FILTERS : TraceFilters :=
  { status := ""
    errorType := ""
    minRating := none
    minConfidence := none
    maxConfidence := none
    startTime := ""
    endTime := "" }

/-- A partial update to `TraceFilters`, as passed to
`set = (patch) => onChange({ ...filters, ...patch })` in
`TraceFiltersPanel`: a field that is absent from the patch keeps the value
from `filters`. -/
structure TraceFiltersPatch where
  status : Option String := none
  errorType : Option String := none
  minRating : Option (Option ℚ) := none
  minConfidence : Option (Option ℚ) := none
  maxConfidence : Option (Option ℚ) := none
  startTime : Option String := none
  endTime : Option String := none

/-- Object-spread merge `{ ...filters, ...patch }`. -/
def applyPatch (f : TraceFilters) (p : TraceFiltersPatch) : TraceFilters :=
  { status := p.status.getD f.status
    errorType := p.errorType.getD f.errorType
    minRating := p.minRating.getD f.minRating
    minConfidence := p.minConfidence.getD f.minConfidence
    maxConfidence := p.maxConfidence.getD f.maxConfidence
    startTime := p.startTime.getD f.startTime
    endTime := p.endTime.getD f.endTime }

/-- Status chip `onClear={() => set({ status: "" })}`. -/
def clearStatusChip (f : TraceFilters) : TraceFilters :=
  applyPatch f { status := some "" }

/-- Error-type chip `onClear={() => set({ errorType: "" })}`. -/
def clearErrorTypeChip (f : TraceFilters) : TraceFilters :=
  applyPatch f { errorType := some "" }

/-- Min-rating chip `onClear={() => set({ minRating: null })}`. -/
def clearMinRatingChip (f : TraceFilters) : TraceFilters :=
  applyPatch f { minRating := some none }

/-- Confidence chip `onClear` calls `set({ minConfidence: null, maxConfidence: null })`. -/
def clearConfidenceChip (f : TraceFilters) : TraceFilters :=
  applyPatch f { minConfidence := some none, maxConfidence := some none }

/-- Date-range chip `onClear={() => set({ startTime: "", endTime: "" })}`. -/
def clearDateChip (f : TraceFilters) : TraceFilters :=
  applyPatch f { startTime := some "", endTime := some "" }

/-! ## Span accessors (`web/src/components/utils/spanUtils.ts`) -/

/-- `spanGetType`: reads `span.attributes["tracebrain.span.type"]`. -/
def spanGetType (s : Span) : Option AttrValue :=
  attrGet s.attributes "tracebrain.span.type"

/-- The strict comparison `spanGetType(span) === "llm_inference"` used by
`spanGetInput` / `spanGetOutput`: true only when the span-type attribute is
the string `"llm_inference"`. -/
def spanIsLLMInference (s : Span) : Bool :=
  match spanGetType s with
  | some (AttrValue.str t) => t == "llm_inference"
  | _ => false

/-- `spanGetInput`: the delta-content key for `llm_inference` spans, the
tool-input key otherwise. -/
def spanGetInput (s : Span) : Option AttrValue :=
  if spanIsLLMInference s then attrGet s.attributes "tracebrain.llm.new_content"
  else attrGet s.attributes "tracebrain.tool.input"

/-- `spanGetOutput`: the LLM completion for `llm_inference` spans, the tool
output otherwise. -/
def spanGetOutput (s : Span) : Option AttrValue :=
  if spanIsLLMInference s then attrGet s.attributes "tracebrain.llm.completion"
  else attrGet s.attributes "tracebrain.tool.output"

/-- The namespaced well-known keys read by `spanGetType`, `spanGetInput` and
`spanGetOutput`. -/
def spanWellKnownKeys : List String :=
  ["tracebrain.span.type", "tracebrain.llm.new_content",
   "tracebrain.llm.completion", "tracebrain.tool.input",
   "tracebrain.tool.output"]

/-- Extend a span's attribute bag with one more binding (the bag is open:
unknown keys may be present). -/
def addAttr (s : Span) (k : String) (v : AttrValue) : Span :=
  { s with attributes := (k, v) :: s.attributes }

/-! ## Confidence filter commit (`TraceFiltersPanel.tsx`, `commitMin` /
`commitMax`) -/

/-- A JavaScript numeric value as produced by `Number(raw)` on the value of
an HTML number input: a (model-exact) rational, or an overflow to one of the
two infinities.  A sanitized number-input value never parses to `NaN`. -/
inductive JSVal where
  | fin (q : ℚ)
  | posInf
  | negInf
  deriving DecidableEq

/-- `x * 100` on JS numbers (model-exact on finite values). -/
def jsMul100 : JSVal → JSVal
  | JSVal.fin q => JSVal.fin (q * 100)
  | JSVal.posInf => JSVal.posInf
  | JSVal.negInf => JSVal.negInf

/-- `Math.round`: floor of `x + 0.5` on finite values, identity on the
infinities. -/
def jsRound : JSVal → JSVal
  | JSVal.fin q => JSVal.fin (⌊q + 1/2⌋ : ℤ)
  | v => v

/-- `x / 100` on JS numbers. -/
def jsDiv100 : JSVal → JSVal
  | JSVal.fin q => JSVal.fin (q / 100)
  | v => v

/-- `Math.max(0, x)`. -/
def jsMax0 : JSVal → JSVal
  | JSVal.fin q => JSVal.fin (max 0 q)
  | JSVal.posInf => JSVal.posInf
  | JSVal.negInf => JSVal.fin 0

/-- `Math.min(1, x)`. -/
def jsMin1 : JSVal → JSVal
  | JSVal.fin q => JSVal.fin (min 1 q)
  | JSVal.posInf => JSVal.fin 1
  | JSVal.negInf => JSVal.negInf

/-- The value space of the confidence min/max number field at commit time
(`onBlur`): the empty string, or a string that `Number` parses to a numeric
value. -/
inductive FieldValue where
  | empty
  | num (v : JSVal)
  deriving DecidableEq

/-- `Math.min(1, Math.max(0, Math.round(Number(raw) * 100) / 100))`. -/
def clampConfidence (v : JSVal) : JSVal :=
  jsMin1 (jsMax0 (jsDiv100 (jsRound (jsMul100 v))))

/-- `commitMin`: the value stored into `minConfidence` — `null` for the
empty input, the clamped rounded number otherwise. -/
def commitMin : FieldValue → Option JSVal
  | FieldValue.empty => none
  | FieldValue.num v => some (clampConfidence v)

/-- `commitMax`: the value stored into `maxConfidence` — same clamping as
`commitMin`. -/
def commitMax : FieldValue → Option JSVal
  | FieldValue.empty => none
  | FieldValue.num v => some (clampConfidence v)

/-! ## Confidence severity colors (`dashboard/ConfidenceIndicator.tsx` and
`trace/AIEvaluation.tsx`) -/

/-- `progressColor` of the dashboard `ConfidenceIndicator`:
`confidence < 0.2 ? "error" : confidence < 0.8 ? "warning" : "success"`. -/
def confidenceIndicatorColor (confidence : ℚ) : String :=
  if confidence < 2/10 then "error"
  else if confidence < 8/10 then "warning"
  else "success"

/-- Bar color of the `AIEvaluation` panel's confidence `LinearProgress`:
`confidence >= 0.8 ? "success.main" : confidence >= 0.5 ? "warning.main" :
"error.main"`. -/
def aiEvaluationBarColor (confidence : ℚ) : String :=
  if confidence ≥ 8/10 then "success.main"
  else if confidence ≥ 5/10 then "warning.main"
  else "error.main"

/-- Severity classes of the MUI theme colors used by the two components. -/
inductive Severity where
  | success
  | warning
  | error
  deriving DecidableEq

/-- The severity a MUI color name denotes (`"error"` and `"error.main"`
both denote the error palette, and so on). -/
def colorSeverity (c : String) : Severity :=
  if c = "error" ∨ c = "error.main" then Severity.error
  else if c = "warning" ∨ c = "warning.main" then Severity.warning
  else Severity.success

/-! ## Reconstruction engine -/

/-- `spans.find((s) => s.span_id === sid)`: the span of a trace snapshot
with the given id, first match wins. -/
def findSpan (spans : List Span) (sid : String) : Option Span :=
  spans.find? (fun s => s.span_id == sid)

/-- A span's own delta content: the `tracebrain.llm.new_content` attribute
when it is present and a string; a node lacking a delta contributes the
empty string. -/
def spanDelta (s : Span) : String :=
  match attrGet s.attributes "tracebrain.llm.new_content" with
  | some (AttrValue.str c) => c
  | _ => ""

/-- Modelled from the spec: the backend ReconstructionEngine is not among
the source files present (only the spec describes it); per the spec,
`reconstruct(span_id)` walks the ancestor chain from the given span up to
its root and collects each node's own delta in root-to-node order.  The
walk is fueled; fuel `spans.length` suffices for any forest. -/
def chainToRoot (spans : List Span) : ℕ → String → List Span
  | 0, _ => []
  | fuel+1, sid =>
    match findSpan spans sid with
    | none => []
    | some s =>
      match s.parent_id with
      | none => [s]
      | some pid => chainToRoot spans fuel pid ++ [s]

/-- Modelled from the spec: `reconstruct(span_id)` concatenates the deltas
collected along the root-to-target ancestor chain, root's delta first, the
target span's delta last. -/
def reconstruct (spans : List Span) (sid : String) : String :=
  String.join ((chainToRoot spans spans.length sid).map spanDelta)

/-- A root span carrying a delta, for the two-span chains of C2. -/
def chainRootSpan (aid da : String) : Span :=
  { span_id := aid, parent_id := none
    attributes := [("tracebrain.llm.new_content", AttrValue.str da)] }

/-- A child span (parent `aid`) carrying a delta, for the two-span chains
of C2. -/
def chainChildSpan (bid aid db : String) : Span :=
  { span_id := bid, parent_id := some aid
    attributes := [("tracebrain.llm.new_content", AttrValue.str db)] }

/-- A root span with no delta attribute at all. -/
def chainRootSpanNoDelta (aid : String) : Span :=
  { span_id := aid, parent_id := none }

/-! ## Confidence rollups (`TraceRows.tsx` / `EpisodesTable.tsx`) -/

/-- `evaluation?.confidence`: the confidence field of a stored AI-evaluation
block, if the value is such a block. -/
def evalConfidence : AttrValue → Option ℚ
  | AttrValue.evalBlock _ c _ _ => some c
  | _ => none

/-- The confidence shown for a trace row:
`traceGetEvaluation(trace)?.confidence` — absent (not `0`) when the trace
carries no evaluation block. -/
def traceRowConfidence (t : Trace) : Option ℚ :=
  (traceGetEvaluation t).bind evalConfidence

/-- `isAnalyzing = !evaluation` for a trace row. -/
def traceRowIsAnalyzing (t : Trace) : Bool :=
  (traceGetEvaluation t).isNone

/-- Modelled from the spec: `episodeGetAverageConfidence` lives in
`web/src/components/utils/episodeUtils.ts`, which is not among the source
files present; per the spec, the episode-level average confidence averages
only over the traces that carry an evaluation, and an episode with zero
evaluated traces reports no data (`undefined`), not zero. -/
def episodeGetAverageConfidence (e : Episode) : Option ℚ :=
  let confs := e.traces.filterMap traceRowConfidence
  if confs.isEmpty then none else some (confs.sum / confs.length)

/-- `isAnalyzing={avgConfidence === undefined}` for an episode row. -/
def episodeRowIsAnalyzing (e : Episode) : Bool :=
  (episodeGetAverageConfidence e).isNone

/-! ## Date presets (`TraceFiltersPanel.tsx`) -/

/-- `DATE_PRESETS` entries: a label and a length in days. -/
structure DatePreset where
  label : String
  days : ℕ
  deriving DecidableEq

/-- `DATE_PRESETS` from `TraceFiltersPanel.tsx`. -/
def DATE_PRESETS : List DatePreset :=
  [{ label := "Today", days := 0 },
   { label := "Yesterday", days := 1 },
   { label := "Last week", days := 7 },
   { label := "Last month", days := 28 },
   { label := "Last 3 months", days := 90 },
   { label := "Last 12 months", days := 365 }]

/-- Decimal digit rendering for the date-string codec. -/
def digitChar : ℕ → Char
  | 0 => '0' | 1 => '1' | 2 => '2' | 3 => '3' | 4 => '4'
  | 5 => '5' | 6 => '6' | 7 => '7' | 8 => '8' | _ => '9'

/-- Decimal digit parsing for the date-string codec: the numeric value of a
digit character, `none` on anything else. -/
def charDigit (c : Char) : Option ℕ :=
  if c.isDigit then some (c.toNat - 48) else none

/-- The date string `date.toISOString().slice(0, 10)` stored into the
filter state, abstracted by the date's day number (days since the epoch —
the granularity at which the source manipulates dates, with the clock fixed
to UTC) rendered as a decimal string. -/
def encodeDay (d : ℕ) : String :=
  String.mk ((Nat.digits 10 d).map digitChar)

/-- `Math.round((new Date(s).getTime()) / 86400000)` on a date string,
abstracted as recovering the day number; a string that is not a rendered
day number yields `none` (an invalid date yields `NaN` in the source, and a
`NaN` day difference matches no preset). -/
def parseDay (s : String) : Option ℕ :=
  (s.data.mapM charDigit).map (Nat.ofDigits 10)

/-- `applyPreset(days)`: for `days === 0` set both bounds to today,
otherwise set the range from `days` days before today up to today. -/
def applyPreset (today days : ℕ) (f : TraceFilters) : TraceFilters :=
  if days = 0 then
    applyPatch f { startTime := some (encodeDay today),
                   endTime := some (encodeDay today) }
  else
    applyPatch f { startTime := some (encodeDay (today - days)),
                   endTime := some (encodeDay today) }

/-- `activeDatePreset`: `null` unless both bounds are set; otherwise the
label of the first preset whose `days` equals the day difference of the
two bounds. -/
def activeDatePreset (f : TraceFilters) : Option String :=
  if f.startTime = "" ∨ f.endTime = "" then none
  else
    match parseDay f.startTime, parseDay f.endTime with
    | some s, some e =>
        (DATE_PRESETS.find? (fun p => (p.days : ℤ) == (e : ℤ) - (s : ℤ))).map
          DatePreset.label
    | _, _ => none

/-! ## Ancestor expansion (`TraceVisualizer`, preselection effect) -/

/-- The ancestor-expansion `while` loop of `TraceVisualizer`:
`current = allSpans.find(s => s.span_id === preselected)`, then while
`current?.parent_id` add `current.parent_id` to the expanded set and move
`current` to the parent.  The loop is embedded with an explicit fuel
parameter; the JS loop corresponds to unbounded fuel, and the theorems show
the output is already stable at fuel `spans.length + 1`. -/
def parentChain (spans : List Span) : ℕ → String → List String
  | 0, _ => []
  | fuel+1, sid =>
    match (findSpan spans sid).bind Span.parent_id with
    | none => []
    | some pid => pid :: parentChain spans fuel pid

/-- The node ids the preselection effect adds to `expandedNodes` beyond the
trace ids: the parent chain of the preselected span, at stabilizing fuel. -/
def expandAncestors (spans : List Span) (sel : String) : List String :=
  parentChain spans (spans.length + 1) sel

/-- `y` is the recorded parent of the span with id `x`: some span of the
list has `span_id = x` and `parent_id = y`.  Proper ancestry is the
transitive closure of this relation. -/
def parentStep (spans : List Span) (x y : String) : Prop :=
  ∃ s ∈ spans, s.span_id = x ∧ s.parent_id = some y

/-- The no-cycles half of the forest invariant, stated along the walk from
`sel`: at no depth does the visited sequence repeat a node. -/
def NoRevisit (spans : List Span) (sel : String) : Prop :=
  ∀ fuel, (sel :: parentChain spans fuel sel).Nodup

/-! ## Concrete inputs used by counterexample and witness theorems -/

/-- A two-span forest (root `a`, child `b`) used by the C4 witness. -/
def visualizerDemoSpans : List Span :=
  [{ span_id := "a", parent_id := none },
   { span_id := "b", parent_id := some "a" }]

/-- A concrete `llm_inference` span used by witnesses. -/
def spanLLMDemo : Span :=
  { span_id := "s1", parent_id := none
    attributes := [("tracebrain.span.type", AttrValue.str "llm_inference"),
                   ("tracebrain.llm.new_content", AttrValue.str "42"),
                   ("tracebrain.llm.completion", AttrValue.str "done")] }

/-- First-appended (oldest) feedback of the demonstration trace. -/
def fbFirst : Feedback := { rating := some 1, comment := some "first" }

/-- Second-appended (latest) feedback of the demonstration trace. -/
def fbSecond : Feedback := { rating := some 5, comment := some "second" }

/-- A trace whose feedback sequence holds two entries in append order:
`fbFirst` was appended first, `fbSecond` most recently. -/
def traceTwoFeedbacks : Trace :=
  { trace_id := "t-fb", feedbacks := [fbFirst, fbSecond] }

end TraceBrain

namespace TraceBrain

/-- C1: the claim states that, with `feedbacks` listed in append order
(oldest first), `traceGetLatestFeedback` returns the most recently appended
entry.  On a trace with two feedback entries the accessor returns
`feedbacks[0]`, the OLDEST entry, while the most recently appended entry is
the last one; the code contradicts its own name and the spec's definition of
"latest feedback".  (The `null`-on-empty half of the claim does hold.) -/
theorem traceGetLatestFeedback_returns_oldest :
    traceGetLatestFeedback traceTwoFeedbacks = some fbFirst ∧
    traceTwoFeedbacks.feedbacks.getLast? = some fbSecond ∧
    fbFirst ≠ fbSecond ∧
    traceGetLatestFeedback { trace_id := "t-empty" } = none := by
  refine ⟨rfl, rfl, ?_, rfl⟩
  decide

/-- C2: for every two-span chain — root `a` carrying delta `da`, child `b`
(parent `a`) carrying delta `db` — `reconstruct b = da ++ db` and
`reconstruct a = da`; and a root lacking a delta contributes the empty
string, so `reconstruct b = db` when the root has no delta attribute. -/
theorem reconstruct_two_span_chain (aid bid da db : String) (hne : aid ≠ bid) :
    reconstruct [chainRootSpan aid da, chainChildSpan bid aid db] bid = da ++ db ∧
    reconstruct [chainRootSpan aid da, chainChildSpan bid aid db] aid = da ∧
    reconstruct [chainRootSpanNoDelta aid, chainChildSpan bid aid db] bid = db := by
  have hab : (aid == bid) = false := beq_eq_false_iff_ne.mpr hne
  have hcA : chainToRoot [chainRootSpan aid da, chainChildSpan bid aid db] 1 aid
      = [chainRootSpan aid da] := by
    show chainToRoot _ (0+1) aid = _
    rw [chainToRoot]
    simp [findSpan, List.find?, chainRootSpan]
  have hcB : chainToRoot [chainRootSpan aid da, chainChildSpan bid aid db] 2 bid
      = [chainRootSpan aid da, chainChildSpan bid aid db] := by
    show chainToRoot _ (1+1) bid = _
    rw [chainToRoot]
    have hfound : findSpan [chainRootSpan aid da, chainChildSpan bid aid db] bid
        = some (chainChildSpan bid aid db) := by
      simp [findSpan, List.find?, chainRootSpan, chainChildSpan, hab]
    rw [hfound]
    show chainToRoot _ 1 aid ++ [chainChildSpan bid aid db] = _
    rw [hcA]
    rfl
  have hcA0 : chainToRoot [chainRootSpanNoDelta aid, chainChildSpan bid aid db] 1 aid
      = [chainRootSpanNoDelta aid] := by
    show chainToRoot _ (0+1) aid = _
    rw [chainToRoot]
    simp [findSpan, List.find?, chainRootSpanNoDelta]
  have hcB0 : chainToRoot [chainRootSpanNoDelta aid, chainChildSpan bid aid db] 2 bid
      = [chainRootSpanNoDelta aid, chainChildSpan bid aid db] := by
    show chainToRoot _ (1+1) bid = _
    rw [chainToRoot]
    have hfound : findSpan [chainRootSpanNoDelta aid, chainChildSpan bid aid db] bid
        = some (chainChildSpan bid aid db) := by
      simp [findSpan, List.find?, chainRootSpanNoDelta, chainChildSpan, hab]
    rw [hfound]
    show chainToRoot _ 1 aid ++ [chainChildSpan bid aid db] = _
    rw [hcA0]
    rfl
  refine ⟨?_, ?_, ?_⟩
  · show String.join ((chainToRoot _ (List.length _) bid).map spanDelta) = da ++ db
    simp only [List.length_cons, List.length_nil, Nat.zero_add, Nat.reduceAdd, hcB]
    simp [spanDelta, attrGet, List.lookup, chainRootSpan, chainChildSpan, String.join]
  · show String.join ((chainToRoot _ (List.length _) aid).map spanDelta) = da
    have hcA2 : chainToRoot [chainRootSpan aid da, chainChildSpan bid aid db] 2 aid
        = [chainRootSpan aid da] := by
      show chainToRoot _ (1+1) aid = _
      rw [chainToRoot]
      simp [findSpan, List.find?, chainRootSpan]
    simp only [List.length_cons, List.length_nil, Nat.zero_add, Nat.reduceAdd, hcA2]
    simp [spanDelta, attrGet, List.lookup, chainRootSpan, String.join]
  · show String.join ((chainToRoot _ (List.length _) bid).map spanDelta) = db
    simp only [List.length_cons, List.length_nil, Nat.zero_add, Nat.reduceAdd, hcB0]
    simp [spanDelta, attrGet, List.lookup, chainRootSpanNoDelta, chainChildSpan,
      String.join]

/-- Witness for C2's theorem: the spec's own example,
`reconstruct(b) = "Hello World"` for root `a` with delta `"Hello "` and
child `b` with delta `"World"`, and `reconstruct(a) = "Hello "`. -/
theorem reconstruct_two_span_chain_witness :
    reconstruct [chainRootSpan "a" "Hello ", chainChildSpan "b" "a" "World"] "b"
      = "Hello World" ∧
    reconstruct [chainRootSpan "a" "Hello ", chainChildSpan "b" "a" "World"] "a"
      = "Hello " :=
  ⟨((reconstruct_two_span_chain "a" "b" "Hello " "World" (by decide)).1).trans rfl,
   ((reconstruct_two_span_chain "a" "b" "Hello " "World" (by decide)).2.1)⟩

/-- C3: a trace carrying no AI-evaluation attribute block reports its
confidence as absent (`undefined`, with `isAnalyzing` true), never as the
number zero; and an episode none of whose traces carry an evaluation
reports its average confidence as no-data (`undefined`, with `isAnalyzing`
true), not zero. -/
theorem missing_evaluation_reports_no_data :
    (∀ t : Trace, attrGet t.attributes "tracebrain.ai_evaluation" = none →
      traceRowConfidence t = none ∧ traceRowIsAnalyzing t = true) ∧
    (∀ e : Episode,
      (∀ t ∈ e.traces, attrGet t.attributes "tracebrain.ai_evaluation" = none) →
      episodeGetAverageConfidence e = none ∧ episodeRowIsAnalyzing e = true) := by
  constructor
  · intro t ht
    have hev : traceGetEvaluation t = none := ht
    simp [traceRowConfidence, traceRowIsAnalyzing, hev]
  · intro e he
    have hconf : e.traces.filterMap traceRowConfidence = [] := by
      rw [List.filterMap_eq_nil_iff]
      intro t ht
      have hev : traceGetEvaluation t = none := he t ht
      simp [traceRowConfidence, hev]
    simp [episodeGetAverageConfidence, episodeRowIsAnalyzing, hconf]

/-- Witness for C3's theorem: a concrete unevaluated trace and a concrete
episode holding only that trace. -/
theorem missing_evaluation_reports_no_data_witness :
    traceRowConfidence { trace_id := "t0" } = none ∧
    episodeGetAverageConfidence
      { episode_id := "e0", traces := [{ trace_id := "t0" }] } = none :=
  ⟨(missing_evaluation_reports_no_data.1 { trace_id := "t0" } rfl).1,
   (missing_evaluation_reports_no_data.2
      { episode_id := "e0", traces := [{ trace_id := "t0" }] }
      (by intro t ht
          rw [List.mem_singleton] at ht
          subst ht
          rfl)).1⟩

/-- Each decimal digit below ten parses back from its rendered character. -/
theorem charDigit_digitChar (k : ℕ) (h : k < 10) :
    charDigit (digitChar k) = some k := by
  interval_cases k <;> rfl

/-- Rendering a digit list and parsing it back is the identity when every
digit is below ten. -/
theorem mapM_charDigit_map_digitChar (ds : List ℕ) (h : ∀ k ∈ ds, k < 10) :
    (ds.map digitChar).mapM charDigit = some ds := by
  induction ds with
  | nil => rfl
  | cons a l ih =>
    simp only [List.map_cons, List.mapM_cons,
      charDigit_digitChar a (h a (by simp)),
      ih (fun k hk => h k (by simp [hk])), Option.pure_def,
      Option.bind_eq_bind, Option.some_bind]

/-- The date-string codec round-trips, and renders a nonzero day number as
a nonempty string. -/
theorem parseDay_encodeDay (d : ℕ) :
    parseDay (encodeDay d) = some d ∧ (d ≠ 0 → encodeDay d ≠ "") := by
  constructor
  · show (((Nat.digits 10 d).map digitChar).mapM charDigit).map (Nat.ofDigits 10)
      = some d
    rw [mapM_charDigit_map_digitChar _
      (fun k hk => Nat.digits_lt_base (by norm_num) hk)]
    simp [Nat.ofDigits_digits]
  · intro hd hcon
    have hdata : (Nat.digits 10 d).map digitChar = [] := congrArg String.data hcon
    simp [Nat.digits_ne_nil_iff_ne_zero.mpr hd] at hdata

/-- Applying a date range of `d ≤ 365` days ending at a modern `today`
yields bounds whose `activeDatePreset` lookup is the preset matching `d`. -/
theorem activeDatePreset_applyPreset (today d : ℕ) (L : String) (f : TraceFilters)
    (hd : d ≤ 365) (ht : 365 < today)
    (hfind : (DATE_PRESETS.find? (fun q => (q.days : ℤ) == ((d : ℕ) : ℤ))).map
      DatePreset.label = some L) :
    (applyPreset today d f).startTime ≠ "" ∧
    (applyPreset today d f).endTime ≠ "" ∧
    activeDatePreset (applyPreset today d f) = some L := by
  obtain ⟨hpt, hnt'⟩ := parseDay_encodeDay today
  have hnt : encodeDay today ≠ "" := hnt' (by omega)
  obtain ⟨hps, hns'⟩ := parseDay_encodeDay (today - d)
  have hns : encodeDay (today - d) ≠ "" := hns' (by omega)
  by_cases hz : d = 0
  · subst hz
    have happ : applyPreset today 0 f =
        applyPatch f { startTime := some (encodeDay today), endTime := some (encodeDay today) } := by
      simp [applyPreset]
    rw [happ]
    refine ⟨hnt, hnt, ?_⟩
    have h1 : (applyPatch f { startTime := some (encodeDay today), endTime := some (encodeDay today) }).startTime = encodeDay today := rfl
    have h2 : (applyPatch f { startTime := some (encodeDay today), endTime := some (encodeDay today) }).endTime = encodeDay today := rfl
    simp only [activeDatePreset, h1, h2]
    rw [if_neg (by simp [hnt]), hpt]
    show (DATE_PRESETS.find? (fun q => (q.days : ℤ) == (today : ℤ) - (today : ℤ))).map
      DatePreset.label = some L
    have hdiff : (today : ℤ) - (today : ℤ) = (((0:ℕ) : ℕ) : ℤ) := by omega
    rw [hdiff]
    exact hfind
  · have happ : applyPreset today d f =
        applyPatch f { startTime := some (encodeDay (today - d)), endTime := some (encodeDay today) } := by
      simp [applyPreset, hz]
    rw [happ]
    refine ⟨hns, hnt, ?_⟩
    have h1 : (applyPatch f { startTime := some (encodeDay (today - d)), endTime := some (encodeDay today) }).startTime = encodeDay (today - d) := rfl
    have h2 : (applyPatch f { startTime := some (encodeDay (today - d)), endTime := some (encodeDay today) }).endTime = encodeDay today := rfl
    simp only [activeDatePreset, h1, h2]
    rw [if_neg (by simp [hns, hnt]), hps, hpt]
    show (DATE_PRESETS.find? (fun q =>
      (q.days : ℤ) == (today : ℤ) - ((today - d : ℕ) : ℤ))).map
      DatePreset.label = some L
    have hdiff : (today : ℤ) - ((today - d : ℕ) : ℤ) = ((d : ℕ) : ℤ) := by omega
    rw [hdiff]
    exact hfind

/-- C10: applying any entry of `DATE_PRESETS` produces a filter state whose
`startTime` and `endTime` are both set and whose `activeDatePreset` is that
entry's own label (round trip), for any modern clock (`today` past day 365
of the epoch, so the subtraction stays on the calendar). -/
theorem date_preset_roundtrip (today : ℕ) (f : TraceFilters) (p : DatePreset)
    (hp : p ∈ DATE_PRESETS) (ht : 365 < today) :
    (applyPreset today p.days f).startTime ≠ "" ∧
    (applyPreset today p.days f).endTime ≠ "" ∧
    activeDatePreset (applyPreset today p.days f) = some p.label := by
  fin_cases hp
  · exact activeDatePreset_applyPreset today 0 "Today" f (by norm_num) ht (by decide)
  · exact activeDatePreset_applyPreset today 1 "Yesterday" f (by norm_num) ht (by decide)
  · exact activeDatePreset_applyPreset today 7 "Last week" f (by norm_num) ht (by decide)
  · exact activeDatePreset_applyPreset today 28 "Last month" f (by norm_num) ht (by decide)
  · exact activeDatePreset_applyPreset today 90 "Last 3 months" f (by norm_num) ht (by decide)
  · exact activeDatePreset_applyPreset today 365 "Last 12 months" f (by norm_num) ht (by decide)

/-- Witness for C10's theorem: the "Last week" preset applied on epoch day
20000 over the default filters round-trips to its own label. -/
theorem date_preset_roundtrip_witness :
    activeDatePreset
      (applyPreset 20000 (DatePreset.mk "Last week" 7).days DEFAULT_TRACE_FILTERS)
      = some "Last week" :=
  (date_preset_roundtrip 20000 DEFAULT_TRACE_FILTERS
    (DatePreset.mk "Last week" 7) (by decide) (by decide)).2.2

/-- A successful `findSpan` returns a member of the list bearing the looked
up id. -/
theorem findSpan_eq_some (spans : List Span) (sid : String) (s : Span)
    (h : findSpan spans sid = some s) : s ∈ spans ∧ s.span_id = sid := by
  unfold findSpan at h
  have hp := List.find?_some h
  simp only [beq_iff_eq] at hp
  exact ⟨List.mem_of_find?_eq_some h, hp⟩

/-- When span ids are unique, `findSpan` finds exactly the member bearing
the id. -/
theorem findSpan_of_mem (spans : List Span) (sid : String) (s : Span)
    (hids : (spans.map Span.span_id).Nodup) (hmem : s ∈ spans)
    (hsid : s.span_id = sid) : findSpan spans sid = some s := by
  induction spans with
  | nil => cases hmem
  | cons t rest ih =>
    rw [List.map_cons, List.nodup_cons] at hids
    rcases List.mem_cons.mp hmem with rfl | hmem'
    · unfold findSpan
      rw [List.find?_cons_of_pos rest (by simp [hsid])]
    · have hne : ¬(t.span_id == sid) = true := by
        intro hb
        have ht : t.span_id = sid := eq_of_beq hb
        have hmm : sid ∈ rest.map Span.span_id := by
          rw [← hsid]; exact List.mem_map_of_mem Span.span_id hmem'
        exact hids.1 (by rw [ht]; exact hmm)
      unfold findSpan
      rw [List.find?_cons_of_neg rest hne]
      exact ih hids.2 hmem'

/-- Once the walk halts within its fuel, extra fuel does not change its
output. -/
theorem parentChain_stable (spans : List Span) :
    ∀ (fuel : ℕ) (sid : String), (parentChain spans fuel sid).length < fuel →
      ∀ k, parentChain spans (fuel + k) sid = parentChain spans fuel sid := by
  intro fuel
  induction fuel with
  | zero => intro sid h _; exact absurd h (Nat.not_lt_zero _)
  | succ fuel ih =>
    intro sid h k
    rw [show fuel + 1 + k = (fuel + k) + 1 by omega]
    cases hm : (findSpan spans sid).bind Span.parent_id with
    | none => simp only [parentChain, hm]
    | some pid =>
      simp only [parentChain, hm] at h ⊢
      have hlen : (parentChain spans fuel pid).length < fuel := by
        simp only [List.length_cons] at h; omega
      rw [ih pid hlen k]

/-- Under the resolution half of the forest invariant, every id the walk
emits is the id of some span of the list. -/
theorem parentChain_subset (spans : List Span)
    (hres : ∀ s ∈ spans, ∀ pid, s.parent_id = some pid →
      pid ∈ spans.map Span.span_id) :
    ∀ (fuel : ℕ) (sid : String),
      parentChain spans fuel sid ⊆ spans.map Span.span_id := by
  intro fuel
  induction fuel with
  | zero => intro sid y hy; simp [parentChain] at hy
  | succ fuel ih =>
    intro sid y hy
    cases hm : (findSpan spans sid).bind Span.parent_id with
    | none => simp only [parentChain, hm] at hy; cases hy
    | some pid =>
      simp only [parentChain, hm, List.mem_cons] at hy
      obtain ⟨s, hfs, hp⟩ := Option.bind_eq_some.mp hm
      obtain ⟨hsmem, _⟩ := findSpan_eq_some spans sid s hfs
      rcases hy with rfl | hy'
      · exact hres s hsmem y hp
      · exact ih pid hy'

/-- The walk's output never exceeds the number of spans. -/
theorem parentChain_length_le (spans : List Span) (sel : String)
    (hres : ∀ s ∈ spans, ∀ pid, s.parent_id = some pid →
      pid ∈ spans.map Span.span_id)
    (hnr : NoRevisit spans sel) (fuel : ℕ) :
    (parentChain spans fuel sel).length ≤ spans.length := by
  have hnd : (parentChain spans fuel sel).Nodup := (hnr fuel).of_cons
  have hsub := parentChain_subset spans hres fuel sel
  have hle := (hnd.subperm hsub).length_le
  simpa using hle

/-- Strict bound when the walk starts at an id present in the list. -/
theorem parentChain_length_lt (spans : List Span) (sel : String)
    (hres : ∀ s ∈ spans, ∀ pid, s.parent_id = some pid →
      pid ∈ spans.map Span.span_id)
    (hsel : sel ∈ spans.map Span.span_id)
    (hnr : NoRevisit spans sel) (fuel : ℕ) :
    (parentChain spans fuel sel).length < spans.length := by
  have hnd := hnr fuel
  have hsub : sel :: parentChain spans fuel sel ⊆ spans.map Span.span_id := by
    intro y hy
    rcases List.mem_cons.mp hy with rfl | hy'
    · exact hsel
    · exact parentChain_subset spans hres fuel sel hy'
  have hle := (hnd.subperm hsub).length_le
  simp only [List.length_cons, List.length_map] at hle
  omega

/-- The no-revisit property is inherited by the parent of the start node. -/
theorem noRevisit_step (spans : List Span) (a c : String)
    (hids : (spans.map Span.span_id).Nodup) (hstep : parentStep spans a c)
    (hnr : NoRevisit spans a) : NoRevisit spans c := by
  obtain ⟨s, hmem, hsid, hp⟩ := hstep
  intro fuel
  have hfind : findSpan spans a = some s := findSpan_of_mem spans a s hids hmem hsid
  have hchain : parentChain spans (fuel + 1) a = c :: parentChain spans fuel c := by
    simp only [parentChain, hfind, Option.some_bind, hp]
  have hh := hnr (fuel + 1)
  rw [hchain] at hh
  exact hh.of_cons

/-- Every id the walk emits is a proper ancestor of the start node. -/
theorem mem_parentChain_transGen (spans : List Span) :
    ∀ (fuel : ℕ) (sid y : String), y ∈ parentChain spans fuel sid →
      Relation.TransGen (parentStep spans) sid y := by
  intro fuel
  induction fuel with
  | zero => intro sid y hy; simp [parentChain] at hy
  | succ fuel ih =>
    intro sid y hy
    cases hm : (findSpan spans sid).bind Span.parent_id with
    | none => simp only [parentChain, hm] at hy; cases hy
    | some pid =>
      simp only [parentChain, hm, List.mem_cons] at hy
      obtain ⟨s, hfs, hp⟩ := Option.bind_eq_some.mp hm
      obtain ⟨hsmem, hsid⟩ := findSpan_eq_some spans sid s hfs
      have hstep : parentStep spans sid pid := ⟨s, hsmem, hsid, hp⟩
      rcases hy with rfl | hy'
      · exact Relation.TransGen.single hstep
      · exact Relation.TransGen.head hstep (ih pid y hy')

/-- Every proper ancestor of the start node is emitted by the walk at
stabilizing fuel. -/
theorem transGen_mem_parentChain (spans : List Span) (sel y : String)
    (hids : (spans.map Span.span_id).Nodup)
    (hres : ∀ s ∈ spans, ∀ pid, s.parent_id = some pid →
      pid ∈ spans.map Span.span_id)
    (hnr : NoRevisit spans sel)
    (h : Relation.TransGen (parentStep spans) sel y) :
    y ∈ parentChain spans (spans.length + 1) sel := by
  revert hnr
  induction h using Relation.TransGen.head_induction_on with
  | base hstep =>
    intro _
    obtain ⟨s, hmem, hsid, hp⟩ := hstep
    have hfind := findSpan_of_mem spans _ s hids hmem hsid
    simp only [parentChain, hfind, Option.some_bind, hp]
    exact List.mem_cons_self _ _
  | ih hstep htrans ihp =>
    intro hnr
    obtain ⟨s, hmem, hsid, hp⟩ := hstep
    have hfind := findSpan_of_mem spans _ s hids hmem hsid
    have hnrc := noRevisit_step spans _ _ hids ⟨s, hmem, hsid, hp⟩ hnr
    have hyc := ihp hnrc
    have hcid := hres s hmem _ hp
    have hlt := parentChain_length_lt spans _ hres hcid hnrc spans.length
    have hstab := parentChain_stable spans spans.length _ hlt 1
    rw [hstab] at hyc
    simp only [parentChain, hfind, Option.some_bind, hp]
    exact List.mem_cons_of_mem _ hyc

/-- C4: on any span list satisfying the forest invariant (unique span ids,
every non-null `parent_id` resolving within the list, no parent chain
revisiting a node), the `TraceVisualizer` ancestor-expansion walk from a
preselected span id terminates — its output is already stable at fuel
`spans.length + 1`, so the unbounded JS `while` loop halts there — and the
ids it adds to the expanded-node set are exactly the span's proper
ancestors (each added once). -/
theorem trace_visualizer_expand_ancestors (spans : List Span) (sel : String)
    (hids : (spans.map Span.span_id).Nodup)
    (hres : ∀ s ∈ spans, ∀ pid, s.parent_id = some pid →
      pid ∈ spans.map Span.span_id)
    (hnr : NoRevisit spans sel) :
    (∀ k, parentChain spans (spans.length + 1 + k) sel
      = expandAncestors spans sel) ∧
    (expandAncestors spans sel).Nodup ∧
    (∀ y, y ∈ expandAncestors spans sel ↔
      Relation.TransGen (parentStep spans) sel y) := by
  refine ⟨?_, (hnr _).of_cons, fun y =>
    ⟨fun hy => mem_parentChain_transGen spans _ sel y hy,
     fun h => transGen_mem_parentChain spans sel y hids hres hnr h⟩⟩
  intro k
  have hle := parentChain_length_le spans sel hres hnr (spans.length + 1)
  exact parentChain_stable spans (spans.length + 1) sel (by omega) k

/-- Witness for C4's theorem: on the concrete two-span forest the walk from
`"b"` expands exactly the root `"a"`, which the theorem certifies as the
proper ancestor. -/
theorem trace_visualizer_expand_ancestors_witness :
    Relation.TransGen (parentStep visualizerDemoSpans) "b" "a" ∧
    expandAncestors visualizerDemoSpans "b" = ["a"] := by
  have hids : (visualizerDemoSpans.map Span.span_id).Nodup := by decide
  have hres : ∀ s ∈ visualizerDemoSpans, ∀ pid, s.parent_id = some pid →
      pid ∈ visualizerDemoSpans.map Span.span_id := by
    intro s hs pid hpid
    fin_cases hs
    · simp at hpid
    · injection hpid with hpid'
      rw [← hpid']
      decide
  have hnr : NoRevisit visualizerDemoSpans "b" := by
    have ha : ∀ m, parentChain visualizerDemoSpans m "a" = [] := by
      intro m
      cases m with
      | zero => rfl
      | succ k => rfl
    intro fuel
    cases fuel with
    | zero => decide
    | succ k =>
      rw [show parentChain visualizerDemoSpans (k + 1) "b"
            = "a" :: parentChain visualizerDemoSpans k "a" from rfl, ha k]
      decide
  refine ⟨((trace_visualizer_expand_ancestors visualizerDemoSpans "b" hids hres
      hnr).2.2 "a").mp ?_, ?_⟩
  · decide
  · decide

/-- C5: the trace filter record exposes exactly the spec's query vocabulary
(status, error type, minimum rating, confidence range, time range — the
seven fields of `TraceFilters`), and `DEFAULT_TRACE_FILTERS` sets every one
of them to its no-constraint value: the empty string for the enumerated and
time fields and `null` for the numeric ones. -/
theorem default_trace_filters_no_constraint :
    DEFAULT_TRACE_FILTERS =
      { status := ""
        errorType := ""
        minRating := none
        minConfidence := none
        maxConfidence := none
        startTime := ""
        endTime := "" } ∧
    ∀ f : TraceFilters,
      f = { status := f.status
            errorType := f.errorType
            minRating := f.minRating
            minConfidence := f.minConfidence
            maxConfidence := f.maxConfidence
            startTime := f.startTime
            endTime := f.endTime } :=
  ⟨rfl, fun _ => rfl⟩

/-- C9: each filter chip's clear action updates only its own filter group:
clearing the status chip resets `status` and leaves the other six fields
unchanged, and likewise for the error-type, min-rating, confidence
(its group being `minConfidence` and `maxConfidence`), and date-range
(its group being `startTime` and `endTime`) chips. -/
theorem filter_chip_clear_frame (f : TraceFilters) :
    (clearStatusChip f).status = "" ∧
    (clearStatusChip f).errorType = f.errorType ∧
    (clearStatusChip f).minRating = f.minRating ∧
    (clearStatusChip f).minConfidence = f.minConfidence ∧
    (clearStatusChip f).maxConfidence = f.maxConfidence ∧
    (clearStatusChip f).startTime = f.startTime ∧
    (clearStatusChip f).endTime = f.endTime ∧
    (clearErrorTypeChip f).errorType = "" ∧
    (clearErrorTypeChip f).status = f.status ∧
    (clearErrorTypeChip f).minRating = f.minRating ∧
    (clearErrorTypeChip f).minConfidence = f.minConfidence ∧
    (clearErrorTypeChip f).maxConfidence = f.maxConfidence ∧
    (clearErrorTypeChip f).startTime = f.startTime ∧
    (clearErrorTypeChip f).endTime = f.endTime ∧
    (clearMinRatingChip f).minRating = none ∧
    (clearMinRatingChip f).status = f.status ∧
    (clearMinRatingChip f).errorType = f.errorType ∧
    (clearMinRatingChip f).minConfidence = f.minConfidence ∧
    (clearMinRatingChip f).maxConfidence = f.maxConfidence ∧
    (clearMinRatingChip f).startTime = f.startTime ∧
    (clearMinRatingChip f).endTime = f.endTime ∧
    (clearConfidenceChip f).minConfidence = none ∧
    (clearConfidenceChip f).maxConfidence = none ∧
    (clearConfidenceChip f).status = f.status ∧
    (clearConfidenceChip f).errorType = f.errorType ∧
    (clearConfidenceChip f).minRating = f.minRating ∧
    (clearConfidenceChip f).startTime = f.startTime ∧
    (clearConfidenceChip f).endTime = f.endTime ∧
    (clearDateChip f).startTime = "" ∧
    (clearDateChip f).endTime = "" ∧
    (clearDateChip f).status = f.status ∧
    (clearDateChip f).errorType = f.errorType ∧
    (clearDateChip f).minRating = f.minRating ∧
    (clearDateChip f).minConfidence = f.minConfidence ∧
    (clearDateChip f).maxConfidence = f.maxConfidence := by
  repeat' constructor

/-- C6: the span accessors read only the namespaced well-known keys —
adding a binding for any key outside that set changes none of their results
(the rest of the bag passes through untouched) — and `spanGetInput` /
`spanGetOutput` select the LLM keys (`tracebrain.llm.new_content`,
`tracebrain.llm.completion`) exactly when the span-type attribute is
`"llm_inference"`, and the tool keys (`tracebrain.tool.input`,
`tracebrain.tool.output`) otherwise. -/
theorem span_accessors_wellknown_keys (s : Span) (k : String) (v : AttrValue)
    (hk : k ∉ spanWellKnownKeys) :
    (spanGetType (addAttr s k v) = spanGetType s ∧
     spanGetInput (addAttr s k v) = spanGetInput s ∧
     spanGetOutput (addAttr s k v) = spanGetOutput s) ∧
    (spanGetType s = some (AttrValue.str "llm_inference") →
       spanGetInput s = attrGet s.attributes "tracebrain.llm.new_content" ∧
       spanGetOutput s = attrGet s.attributes "tracebrain.llm.completion") ∧
    (spanIsLLMInference s = false →
       spanGetInput s = attrGet s.attributes "tracebrain.tool.input" ∧
       spanGetOutput s = attrGet s.attributes "tracebrain.tool.output") := by
  simp only [spanWellKnownKeys, List.mem_cons, List.not_mem_nil, or_false,
    not_or] at hk
  obtain ⟨h1, h2, h3, h4, h5⟩ := hk
  have lk : ∀ (key : String), key ≠ k →
      attrGet (addAttr s k v).attributes key = attrGet s.attributes key := by
    intro key hne
    simp [attrGet, addAttr, List.lookup, beq_eq_false_iff_ne.mpr hne]
  have htype : spanGetType (addAttr s k v) = spanGetType s :=
    lk "tracebrain.span.type" (Ne.symm h1)
  have hllm : spanIsLLMInference (addAttr s k v) = spanIsLLMInference s := by
    simp [spanIsLLMInference, htype]
  refine ⟨⟨htype, ?_, ?_⟩, ?_, ?_⟩
  · simp only [spanGetInput, hllm]
    cases spanIsLLMInference s with
    | false => simpa using lk "tracebrain.tool.input" (Ne.symm h4)
    | true => simpa using lk "tracebrain.llm.new_content" (Ne.symm h2)
  · simp only [spanGetOutput, hllm]
    cases spanIsLLMInference s with
    | false => simpa using lk "tracebrain.tool.output" (Ne.symm h5)
    | true => simpa using lk "tracebrain.llm.completion" (Ne.symm h3)
  · intro ht
    have : spanIsLLMInference s = true := by simp [spanIsLLMInference, ht]
    simp [spanGetInput, spanGetOutput, this]
  · intro hb
    simp [spanGetInput, spanGetOutput, hb]

/-- Witness for C6's theorem: a custom (non-well-known) key added to a
concrete `llm_inference` span changes no accessor result, and the accessors
read the LLM keys on it. -/
theorem span_accessors_wellknown_keys_witness :
    spanGetInput (addAttr spanLLMDemo "custom.vendor.key" (AttrValue.num 7)) =
      spanGetInput spanLLMDemo ∧
    spanGetInput spanLLMDemo =
      attrGet spanLLMDemo.attributes "tracebrain.llm.new_content" :=
  ⟨(span_accessors_wellknown_keys spanLLMDemo "custom.vendor.key"
      (AttrValue.num 7) (by decide)).1.2.1,
   ((span_accessors_wellknown_keys spanLLMDemo "custom.vendor.key"
      (AttrValue.num 7) (by decide)).2.1 (by decide)).1⟩

/-- C7: committing a value in the confidence min/max field stores `null`
exactly for the empty input; any other committed value is stored as a finite
number lying in `[0, 1]` and rounded to two decimal places (one hundred
times it is an integer).  `commitMax` clamps identically to `commitMin`. -/
theorem commit_confidence_clamped (raw : FieldValue) :
    commitMax raw = commitMin raw ∧
    (commitMin raw = none ↔ raw = FieldValue.empty) ∧
    (∀ q : ℚ, commitMin raw = some (JSVal.fin q) →
      0 ≤ q ∧ q ≤ 1 ∧ (100 * q).den = 1) ∧
    (∀ v, raw = FieldValue.num v → ∃ q : ℚ, commitMin raw = some (JSVal.fin q)) := by
  cases raw with
  | empty =>
    refine ⟨rfl, by simp [commitMin], ?_, ?_⟩
    · intro q hq; simp [commitMin] at hq
    · intro v hv; simp at hv
  | num v =>
    refine ⟨rfl, by simp [commitMin], ?_, ?_⟩
    · intro q hq
      cases v with
      | posInf =>
        simp only [commitMin, clampConfidence, jsMul100, jsRound, jsDiv100,
          jsMax0, jsMin1, Option.some.injEq, JSVal.fin.injEq] at hq
        subst hq
        refine ⟨by norm_num, by norm_num, ?_⟩
        rw [show (100:ℚ) * 1 = ((100:ℤ):ℚ) by norm_num]
        exact Rat.den_intCast _
      | negInf =>
        simp only [commitMin, clampConfidence, jsMul100, jsRound, jsDiv100,
          jsMax0, jsMin1, Option.some.injEq, JSVal.fin.injEq] at hq
        subst hq
        refine ⟨by norm_num [min_def], by norm_num [min_def], ?_⟩
        rw [show (100:ℚ) * (1 ⊓ 0) = ((0:ℤ):ℚ) by norm_num [min_def]]
        exact Rat.den_intCast _
      | fin x =>
        simp only [commitMin, clampConfidence, jsMul100, jsRound, jsDiv100,
          jsMax0, jsMin1, Option.some.injEq, JSVal.fin.injEq] at hq
        subst hq
        set y : ℚ := (⌊x * 100 + 1/2⌋ : ℤ) / 100 with hy
        refine ⟨le_min (by norm_num) (le_max_left 0 y), min_le_left 1 _, ?_⟩
        rcases le_or_lt y 0 with h0 | h0
        · rw [max_eq_left h0, min_eq_right (by norm_num : (0:ℚ) ≤ 1)]
          rw [show (100:ℚ) * 0 = ((0:ℤ):ℚ) by norm_num]
          exact Rat.den_intCast _
        · rw [max_eq_right h0.le]
          rcases le_or_lt 1 y with h1 | h1
          · rw [min_eq_left h1]
            rw [show (100:ℚ) * 1 = ((100:ℤ):ℚ) by norm_num]
            exact Rat.den_intCast _
          · rw [min_eq_right h1.le, hy,
              mul_div_cancel₀ _ (by norm_num : (100:ℚ) ≠ 0)]
            exact Rat.den_intCast _
    · intro w hw
      cases hw
      cases v <;> exact ⟨_, rfl⟩

/-- Witness for C7's theorem: committing the parsed value 0.123 stores 0.12,
which lies in `[0, 1]` and has exactly two decimal places. -/
theorem commit_confidence_clamped_witness :
    0 ≤ (3 : ℚ)/25 ∧ (3 : ℚ)/25 ≤ 1 ∧ ((100 : ℚ) * (3/25)).den = 1 :=
  (commit_confidence_clamped (FieldValue.num (JSVal.fin (123/1000)))).2.2.1
    (3/25) (by
      have h12 : ⌊(123:ℚ)/1000 * 100 + 1/2⌋ = 12 := by
        rw [Int.floor_eq_iff]; norm_num
      simp only [commitMin, clampConfidence, jsMul100, jsRound, jsDiv100,
        jsMax0, jsMin1, h12, Option.some.injEq, JSVal.fin.injEq]
      norm_num [min_def, max_def])

/-- C8 counterexample: at confidence 0.3 (inside `[0, 1]`) the dashboard
`ConfidenceIndicator` colors the progress bar with the warning palette while
the `AIEvaluation` panel colors its confidence bar with the error palette,
so the two components do not assign the same severity to every confidence
value in `[0, 1]`. -/
theorem confidence_severity_mismatch_at_03 :
    (0 : ℚ) ≤ 3/10 ∧ (3 : ℚ)/10 ≤ 1 ∧
    colorSeverity (confidenceIndicatorColor (3/10)) = Severity.warning ∧
    colorSeverity (aiEvaluationBarColor (3/10)) = Severity.error ∧
    colorSeverity (confidenceIndicatorColor (3/10)) ≠
      colorSeverity (aiEvaluationBarColor (3/10)) := by
  have hc : confidenceIndicatorColor (3/10) = "warning" := by
    unfold confidenceIndicatorColor
    rw [if_neg (by norm_num), if_pos (by norm_num)]
  have ha : aiEvaluationBarColor (3/10) = "error.main" := by
    unfold aiEvaluationBarColor
    rw [if_neg (by norm_num), if_neg (by norm_num)]
  refine ⟨by norm_num, by norm_num, ?_, ?_, ?_⟩ <;>
    simp [hc, ha, colorSeverity]

/-- C8 amended: for every confidence `c ∈ [0, 1]` the dashboard
`ConfidenceIndicator` and the `AIEvaluation` panel assign the same severity
whenever `c < 0.2` or `c ≥ 0.5`; on `[0.2, 0.5)` they disagree — the
dashboard shows warning while the panel shows error. -/
theorem confidence_severity_agreement (c : ℚ) (_h0 : 0 ≤ c) (_h1 : c ≤ 1) :
    ((c < 2/10 ∨ 1/2 ≤ c) →
      colorSeverity (confidenceIndicatorColor c) =
        colorSeverity (aiEvaluationBarColor c)) ∧
    (2/10 ≤ c → c < 1/2 →
      colorSeverity (confidenceIndicatorColor c) = Severity.warning ∧
      colorSeverity (aiEvaluationBarColor c) = Severity.error) := by
  constructor
  · rintro (h | h) <;>
      · unfold confidenceIndicatorColor aiEvaluationBarColor
        split_ifs <;> first | decide | linarith
  · intro hlo hhi
    unfold confidenceIndicatorColor aiEvaluationBarColor
    split_ifs <;> first | exact ⟨by decide, by decide⟩ | linarith

/-- Witness for C8's amended theorem at confidence 0.9, where both
components agree on the success severity. -/
theorem confidence_severity_agreement_witness :
    colorSeverity (confidenceIndicatorColor (9/10)) =
      colorSeverity (aiEvaluationBarColor (9/10)) :=
  (confidence_severity_agreement (9/10) (by norm_num) (by norm_num)).1
    (Or.inr (by norm_num))

/-- Witness for C9's theorem at a fully populated concrete filter state. -/
theorem filter_chip_clear_frame_witness :
    (clearStatusChip
        { status := "failed", errorType := "timeout", minRating := some 3
          minConfidence := some (1/2), maxConfidence := some 1
          startTime := "2024-01-01", endTime := "2024-02-01" }).errorType
      = "timeout" :=
  (filter_chip_clear_frame
    { status := "failed", errorType := "timeout", minRating := some 3
      minConfidence := some (1/2), maxConfidence := some 1
      startTime := "2024-01-01", endTime := "2024-02-01" }).2.1

end TraceBrain
